import Mathlib

/-!
Shallow embedding of the schema-inference / diagnostics core of
api-schema-validator (src/lib/index.js, second revision: FORMAT_PATTERNS,
SchemaValidator._detectFormat, _getTypeDescriptor, _mergeTypeInfo,
_getRequiredFields, createJsonSchema array branch, and the instancePath
resolution loop of validateJsonSchemaSync / validateJsonSchema).

JSON values are modelled as an inductive type; JS objects become ordered
association lists (JSON-decoded objects have no duplicate keys). JS `Set`
insertion-order semantics are modelled as duplicate-free lists extended at
the back. The regular expressions of FORMAT_PATTERNS are translated into
executable character-list recognisers; each recogniser is commented with
the regex it embeds.
-/

namespace ApiSchemaValidator

/-- A decoded JSON value (the universal input of the inference core).
Numbers are kept abstract as integers: no claim depends on numeric
payloads beyond `typeof value === 'number'`. -/
inductive Json where
  | null : Json
  | bool (b : Bool) : Json
  | num (n : Int) : Json
  | str (s : String) : Json
  | arr (items : List Json) : Json
  | obj (fields : List (String × Json)) : Json
deriving Repr

/-- A JS object as seen by the merge code: an ordered key/value list. -/
abbrev JObj := List (String × Json)

/-- The `\s` character class of JS regexes (and the characters removed by
`String.prototype.trim`). -/
def isJsSpace (c : Char) : Bool :=
  c = ' ' || c = '\t' || c = '\n' || c = '\r' || c = '\u000B' || c = '\u000C' ||
  c = '\u00A0' || c = '\u1680' || ('\u2000' ≤ c && c ≤ '\u200A') ||
  c = '\u2028' || c = '\u2029' || c = '\u202F' || c = '\u205F' ||
  c = '\u3000' || c = '\uFEFF'

/-- Hex digit class `[0-9a-fA-F]`, the effect of `[0-9a-f]` under the `/i` flag. -/
def isHexDig (c : Char) : Bool :=
  c.isDigit || ('a' ≤ c && c ≤ 'f') || ('A' ≤ c && c ≤ 'F')

/-- Consume exactly `n` decimal digits (`\d{n}`). -/
def chompDigits : Nat → List Char → Option (List Char)
  | 0, cs => some cs
  | n + 1, c :: cs => if c.isDigit then chompDigits n cs else none
  | _ + 1, [] => none

/-- Consume one fixed character. -/
def chompChar (c : Char) : List Char → Option (List Char)
  | d :: cs => if d = c then some cs else none
  | [] => none

/-- Consume an optional fraction `(\.\d+)?`; on no match the input is
returned unchanged (the enclosing recogniser then fails at its anchor,
exactly as the backtracking regex would). -/
def chompFrac (cs : List Char) : List Char :=
  match cs with
  | '.' :: rest =>
    match rest with
    | c :: _ => if c.isDigit then rest.dropWhile Char.isDigit else cs
    | [] => cs
  | _ => cs

/-- Drop one optional colon (`:?`). -/
def chompColonOpt : List Char → List Char
  | ':' :: r => r
  | cs => cs

/-- Anchored optional timezone `(Z|[+-]\d{2}:?\d{2})?$` under `/i`. -/
def zoneEnd : List Char → Bool
  | [] => true
  | ['Z'] => true
  | ['z'] => true
  | c :: rest =>
    (c = '+' || c = '-') &&
    (match chompDigits 2 rest with
     | some r2 =>
       (match chompDigits 2 (chompColonOpt r2) with
        | some [] => true
        | _ => false)
     | none => false)

/-- Anchored time tail `\d{2}:\d{2}:\d{2}(\.\d+)?(Z|[+-]\d{2}:?\d{2})?$`. -/
def timeTail (cs : List Char) : Bool :=
  match ((((chompDigits 2 cs).bind (chompChar ':')).bind
      (chompDigits 2)).bind (chompChar ':')).bind (chompDigits 2) with
  | some rest => zoneEnd (chompFrac rest)
  | none => false

/-- Test for `date-time`:
`/^\d{4}-\d{2}-\d{2}[T ]\d{2}:\d{2}:\d{2}(\.\d+)?(Z|[+-]\d{2}:?\d{2})?$/i`. -/
def dateTimeTest (s : String) : Bool :=
  match (((chompDigits 4 s.data).bind (chompChar '-')).bind
      (chompDigits 2)).bind (chompChar '-') |>.bind (chompDigits 2) with
  | some (c :: rest) => (c = 'T' || c = 't' || c = ' ') && timeTail rest
  | _ => false

/-- Test for `date`: `/^\d{4}-\d{2}-\d{2}$/`. -/
def dateTest (s : String) : Bool :=
  match (((chompDigits 4 s.data).bind (chompChar '-')).bind
      (chompDigits 2)).bind (chompChar '-') |>.bind (chompDigits 2) with
  | some [] => true
  | _ => false

/-- Test for `time`: `/^\d{2}:\d{2}:\d{2}(\.\d+)?(Z|[+-]\d{2}:?\d{2})?$/i`. -/
def timeTest (s : String) : Bool :=
  timeTail s.data

/-- Ordered optional duration designator groups, e.g. `(\d+Y)?(\d+M)?…`:
each unit may be taken at most once, in the given order, and always with a
non-empty digit run in front. -/
def chompUnits : List Char → List Char → List Char
  | [], cs => cs
  | u :: us, cs =>
    match cs.span Char.isDigit with
    | (ds, d :: rest) =>
      if !ds.isEmpty && d = u then chompUnits us rest else chompUnits us cs
    | _ => cs

/-- Optional seconds designator `(\d+(\.\d+)?S)?`; unchanged input on no
match. -/
def chompSeconds (cs : List Char) : List Char :=
  match cs.span Char.isDigit with
  | (ds, rest) =>
    if ds.isEmpty then cs
    else
      match rest with
      | 'S' :: r => r
      | '.' :: r2 =>
        (match r2.span Char.isDigit with
         | (ds2, 'S' :: r3) => if ds2.isEmpty then cs else r3
         | _ => cs)
      | _ => cs

/-- Test for `duration`:
`/^P(?!$)(\d+Y)?(\d+M)?(\d+W)?(\d+D)?(T(?!$)(\d+H)?(\d+M)?(\d+(\.\d+)?S)?)?$/`. -/
def durationTest (s : String) : Bool :=
  match s.data with
  | 'P' :: rest =>
    !rest.isEmpty &&
    (match chompUnits ['Y', 'M', 'W', 'D'] rest with
     | [] => true
     | 'T' :: r2 =>
       !r2.isEmpty && (chompSeconds (chompUnits ['H', 'M'] r2)).isEmpty
     | _ => false)
  | _ => false

/-- Consume exactly `n` hex digits (`[0-9a-f]{n}` under `/i`). -/
def chompHex : Nat → List Char → Option (List Char)
  | 0, cs => some cs
  | n + 1, c :: cs => if isHexDig c then chompHex n cs else none
  | _ + 1, [] => none

/-- The variant-nibble class `[089ab]` under `/i`. -/
def uuidVariantChar (c : Char) : Bool :=
  c = '0' || c = '8' || c = '9' || c = 'a' || c = 'b' || c = 'A' || c = 'B'

/-- Test for `uuid`:
`/^[0-9a-f]{8}-[0-9a-f]{4}-[0-5][0-9a-f]{3}-[089ab][0-9a-f]{3}-[0-9a-f]{12}$/i`. -/
def uuidTest (s : String) : Bool :=
  match (((chompHex 8 s.data).bind (chompChar '-')).bind
      (chompHex 4)).bind (chompChar '-') with
  | some (c3 :: r3) =>
    ('0' ≤ c3 && c3 ≤ '5') &&
    (match (chompHex 3 r3).bind (chompChar '-') with
     | some (c4 :: r4) =>
       uuidVariantChar c4 &&
       (match ((chompHex 3 r4).bind (chompChar '-')).bind (chompHex 12) with
        | some [] => true
        | _ => false)
     | _ => false)
  | _ => false

/-- Characters allowed in the e-mail local part: `[^\s@"()<>\[\]\\,;:]`. -/
def emailLocalChar (c : Char) : Bool :=
  !(isJsSpace c || c = '@' || c = '"' || c = '(' || c = ')' || c = '<' ||
    c = '>' || c = '[' || c = ']' || c = '\\' || c = ',' || c = ';' || c = ':')

/-- Test for `email`: `/^[^\s@"()<>\[\]\\,;:]+@[^\s@]+\.[^\s@]+$/` plus
`v.length <= 254`. The domain must contain a dot that has at least one
character on each side. -/
def emailTest (s : String) : Bool :=
  s.length ≤ 254 &&
  (match s.data.span (fun c => c ≠ '@') with
   | (loc, '@' :: dom) =>
     !loc.isEmpty && loc.all emailLocalChar &&
     dom.all (fun c => !(isJsSpace c || c = '@')) &&
     ((dom.drop 1).dropLast.contains '.')
   | _ => false)

/-- Scheme-tail characters `[a-zA-Z0-9+\-.]`. -/
def uriSchemeChar (c : Char) : Bool :=
  c.isAlphanum || c = '+' || c = '-' || c = '.'

/-- Test for `uri`: `/^[a-zA-Z][a-zA-Z0-9+\-.]*:\/\/[^\s]+$/`. -/
def uriTest (s : String) : Bool :=
  match s.data with
  | c :: rest =>
    c.isAlpha &&
    (match rest.span uriSchemeChar with
     | (_, ':' :: '/' :: '/' :: tail) =>
       !tail.isEmpty && tail.all (fun d => !isJsSpace d)
     | _ => false)
  | [] => false

/-- Model of JS `String.prototype.split` with a one-character separator:
split at every occurrence, keeping empty segments (always at least one
segment). -/
def splitOnChar (sep : Char) : List Char → List (List Char)
  | [] => [[]]
  | c :: cs =>
    if c = sep then [] :: splitOnChar sep cs
    else
      match splitOnChar sep cs with
      | [] => [[c]]
      | seg :: rest => (c :: seg) :: rest

/-- Model of JS `v.split('::')`: split at every non-overlapping,
left-to-right occurrence of the two-character separator `::`. -/
def splitOnCC : List Char → List (List Char)
  | ':' :: ':' :: cs => [] :: splitOnCC cs
  | c :: cs =>
    (match splitOnCC cs with
     | [] => [[c]]
     | seg :: rest => (c :: seg) :: rest)
  | [] => [[]]

/-- One IPv4 octet: `25[0-5]|2[0-4]\d|1\d{2}|[1-9]?\d`. -/
def octetOk (p : List Char) : Bool :=
  match p with
  | [a] => a.isDigit
  | [a, b] => ('1' ≤ a && a ≤ '9') && b.isDigit
  | [a, b, c] =>
    (a = '1' && b.isDigit && c.isDigit) ||
    (a = '2' && ('0' ≤ b && b ≤ '4') && c.isDigit) ||
    (a = '2' && b = '5' && ('0' ≤ c && c ≤ '5'))
  | _ => false

/-- Test for `ipv4`: four dot-separated octets,
`/^((25[0-5]|2[0-4]\d|1\d{2}|[1-9]?\d)\.){3}(25[0-5]|2[0-4]\d|1\d{2}|[1-9]?\d)$/`. -/
def ipv4Test (s : String) : Bool :=
  match splitOnChar '.' s.data with
  | [a, b, c, d] => octetOk a && octetOk b && octetOk c && octetOk d
  | _ => false

/-- One IPv6 group: 1-4 hex digits. -/
def hextetOk (p : List Char) : Bool :=
  !p.isEmpty && p.length ≤ 4 && p.all isHexDig

/-- Test for `ipv6`, translating the source's function: either the expanded
8-group form `/^([0-9a-f]{1,4}:){7}[0-9a-f]{1,4}$/i`, or a single `::`
compression whose two sides hold at most seven groups in total. -/
def ipv6Test (s : String) : Bool :=
  (decide ((splitOnChar ':' s.data).length = 8) &&
    (splitOnChar ':' s.data).all hextetOk) ||
  (match splitOnCC s.data with
   | [l, r] =>
     let left := if l.isEmpty then [] else splitOnChar ':' l
     let right := if r.isEmpty then [] else splitOnChar ':' r
     decide (left.length + right.length ≤ 7) && (left ++ right).all hextetOk
   | _ => false)

/-- Hostname label characters `[a-zA-Z0-9-]`. -/
def hostLabelChar (c : Char) : Bool :=
  c.isAlphanum || c = '-'

/-- One hostname label: 1-63 characters from `[a-zA-Z0-9-]`, neither
starting nor ending with a hyphen (the `(?!-)…(?<!-)` guards). -/
def labelOk (p : List Char) : Bool :=
  !p.isEmpty && decide (p.length ≤ 63) && p.all hostLabelChar &&
  decide (p.head? ≠ some '-') && decide (p.getLast? ≠ some '-')

/-- Test for `hostname`: `v.length <= 253 && v.includes('.') &&`
`/^(?!-)[a-zA-Z0-9-]{1,63}(?<!-)(\.((?!-)[a-zA-Z0-9-]{1,63}(?<!-)))+$/`,
i.e. at least two dot-separated labels, each `labelOk`. -/
def hostnameTest (s : String) : Bool :=
  decide (s.length ≤ 253) && s.data.contains '.' &&
  (let parts := splitOnChar '.' s.data
   decide (2 ≤ parts.length) && parts.all labelOk)

/-- The ten JSON Schema format names detected by FORMAT_PATTERNS. -/
inductive FormatTag where
  | dateTime | date | time | duration | uuid | email | uri | ipv4 | ipv6 | hostname
deriving DecidableEq, Repr

/-- The source's `FORMAT_PATTERNS` array: ordered (format, test) entries,
evaluated top to bottom, first match wins. -/
def FORMAT_PATTERNS : List (FormatTag × (String → Bool)) :=
  [(FormatTag.dateTime, dateTimeTest),
   (FormatTag.date, dateTest),
   (FormatTag.time, timeTest),
   (FormatTag.duration, durationTest),
   (FormatTag.uuid, uuidTest),
   (FormatTag.email, emailTest),
   (FormatTag.uri, uriTest),
   (FormatTag.ipv4, ipv4Test),
   (FormatTag.ipv6, ipv6Test),
   (FormatTag.hostname, hostnameTest)]

/-- Model of `SchemaValidator._detectFormat`: `null` for empty / whitespace-only
strings (`value.trim() === ''`), otherwise the first entry of
FORMAT_PATTERNS whose test accepts the value. The `typeof value !==
'string'` guard is vacuous here because the argument type is `String`. -/
def detectFormat (v : String) : Option FormatTag :=
  if v.data.all isJsSpace then none
  else (FORMAT_PATTERNS.find? (fun p => p.2 v)).map (fun p => p.1)

/-- The JS `typeof`-derived primitive classification used by
`_getTypeDescriptor` (`'null'` for `null`, `'array'` for arrays, otherwise
`typeof`). -/
inductive TypeTag where
  | null | boolean | number | string | array | object
deriving DecidableEq, Repr

/-- Schema fragment `{ type, format? }` for a single value. -/
structure TypeDescriptor where
  type : TypeTag
  format : Option FormatTag
deriving DecidableEq, Repr

/-- Model of `SchemaValidator._getTypeDescriptor`, checked in the source's order:
`null`, `Array.isArray`, `typeof 'object'`, `typeof 'string'` (with format
detection), then the remaining scalars. -/
def getTypeDescriptor : Json → TypeDescriptor
  | Json.null => { type := TypeTag.null, format := none }
  | Json.arr _ => { type := TypeTag.array, format := none }
  | Json.obj _ => { type := TypeTag.object, format := none }
  | Json.str s => { type := TypeTag.string, format := detectFormat s }
  | Json.bool _ => { type := TypeTag.boolean, format := none }
  | Json.num _ => { type := TypeTag.number, format := none }

/-- Add an element to a JS `Set` modelled as a duplicate-free list in
insertion order. -/
def addSet {α : Type} [BEq α] (x : α) (xs : List α) : List α :=
  if xs.contains x then xs else xs ++ [x]

/-- Per-field aggregation state of `_mergeTypeInfo`:
`{ types: Set, formats: Set, hasNull: boolean }`. -/
structure FieldMeta where
  types : List TypeTag
  formats : List FormatTag
  hasNull : Bool
deriving DecidableEq, Repr

/-- One step of the `_mergeTypeInfo` scan for a fixed key: a missing key
or a `null` value marks `hasNull`; any other value contributes its type
tag and (when present) its detected format. -/
def stepMeta (key : String) (meta : FieldMeta) (item : JObj) : FieldMeta :=
  match item.lookup key with
  | none => { meta with hasNull := true }
  | some Json.null => { meta with hasNull := true }
  | some v =>
    let d := getTypeDescriptor v
    { meta with
      types := addSet d.type meta.types,
      formats :=
        match d.format with
        | some f => addSet f meta.formats
        | none => meta.formats }

/-- Scan every item for one key (the inner loop of `_mergeTypeInfo`). -/
def scanField (key : String) (items : List JObj) : FieldMeta :=
  items.foldl (stepMeta key) { types := [], formats := [], hasNull := false }

/-- Insert a key into the ordered key set if not already present. -/
def insertKey (k : String) (ks : List String) : List String :=
  if ks.contains k then ks else ks ++ [k]

/-- Model of `new Set(items.flatMap((item) => Object.keys(item)))`: the union of
all field names, in first-seen order, without duplicates. -/
def keysUnion (items : List JObj) : List String :=
  items.foldl (fun acc item => item.foldl (fun a kv => insertKey kv.1 a) acc) []

/-- The `type` of a merged field: a single tag or a union list. -/
inductive SchemaType where
  | single (t : TypeTag)
  | union (ts : List TypeTag)
deriving DecidableEq, Repr

/-- A merged per-field schema fragment. -/
structure FieldSchema where
  type : SchemaType
  format : Option FormatTag
deriving DecidableEq, Repr

/-- Final-descriptor construction of `_mergeTypeInfo`: append `'null'`
when `hasNull`, collapse singleton type lists, and attach a format exactly
when the format set has exactly one member. -/
def buildDescriptor (meta : FieldMeta) : FieldSchema :=
  let typeList := meta.types ++ (if meta.hasNull then [TypeTag.null] else [])
  { type :=
      match typeList with
      | [t] => SchemaType.single t
      | ts => SchemaType.union ts,
    format :=
      match meta.formats with
      | [f] => some f
      | _ => none }

/-- Model of `SchemaValidator._mergeTypeInfo`: the map from each field name (in
first-seen order) to its merged descriptor. -/
def mergeTypeInfo (items : List JObj) : List (String × FieldSchema) :=
  (keysUnion items).map (fun k => (k, buildDescriptor (scanField k items)))

/-- Whether one key is present and non-`null` in every item (the filter
predicate of `_getRequiredFields`). -/
def isRequiredIn (items : List JObj) (key : String) : Bool :=
  items.all (fun item =>
    match item.lookup key with
    | some Json.null => false
    | some _ => true
    | none => false)

/-- Model of `SchemaValidator._getRequiredFields`: empty input yields `[]`,
otherwise the keys of the union that are present and non-`null` in every
item. -/
def getRequiredFields (items : List JObj) : List String :=
  if items.isEmpty then []
  else (keysUnion items).filter (isRequiredIn items)

/-- Truth of JS `typeof v === 'object'` for a JSON value: true for objects, arrays
and `null`. -/
def jsTypeofIsObject : Json → Bool
  | Json.null => true
  | Json.obj _ => true
  | Json.arr _ => true
  | _ => false

/-- The array-item filter `(i) => i && typeof i === 'object' &&
!Array.isArray(i)`: keeps exactly the plain objects (`null` is falsy). -/
def asObj : Json → Option JObj
  | Json.obj kvs => some kvs
  | _ => none

/-- True exactly when `asObj` keeps the value. -/
def isPlainObj : Json → Bool
  | Json.obj _ => true
  | _ => false

/-- The `schema.items` override written by the array branch. -/
structure ItemsSchema where
  properties : List (String × FieldSchema)
  required : List String
deriving DecidableEq, Repr

/-- The array branch shared by `createJsonSchema` and the `createSchema`
path of `validateJsonSchemaSync`: when the input is a non-empty array
whose first element satisfies `typeof json[0] === 'object'`, filter to the
plain-object items and build `{ type: 'object', properties:
_mergeTypeInfo(objectItems), required: _getRequiredFields(objectItems) }`;
otherwise no items override is produced. -/
def createItemsSchema (json : Json) : Option ItemsSchema :=
  match json with
  | Json.arr items =>
    match items with
    | [] => none
    | first :: _ =>
      if jsTypeofIsObject first then
        let objectItems := items.filterMap asObj
        some { properties := mergeTypeInfo objectItems,
               required := getRequiredFields objectItems }
      else none
  | _ => none

/-- Model of JS truthiness of a JSON value (`val &&` in the resolution loop). -/
def truthy : Json → Bool
  | Json.null => false
  | Json.bool b => b
  | Json.num n => decide (n ≠ 0)
  | Json.str s => decide (s ≠ "")
  | Json.arr _ => true
  | Json.obj _ => true

/-- Lookup `val[part]` for an object or array node: own-property lookup for
objects, canonical-index lookup for arrays; `none` models JS `undefined`. -/
def jsGet (v : Json) (part : String) : Option Json :=
  match v with
  | Json.obj kvs => kvs.lookup part
  | Json.arr xs =>
    (match part.toNat? with
     | some i => if toString i = part then xs.get? i else none
     | none => none)
  | _ => none

/-- One iteration of the instancePath loop:
`if (part && val && typeof val === 'object') val = val[part]`.
`none` models a `val` that has become `undefined` (falsy, so every later
iteration leaves it unchanged). -/
def stepResolve : Option Json → String → Option Json
  | none, _ => none
  | some v, part =>
    if part ≠ "" && truthy v && jsTypeofIsObject v then jsGet v part
    else some v

/-- Model of `errorPath.replace(/^\//, '').split('/')`. -/
def pathSegments (errorPath : String) : List String :=
  (splitOnChar '/'
    (match errorPath.data with
     | '/' :: rest => rest
     | cs => cs)).map String.mk

/-- The diagnostic value-resolution loop of `validateJsonSchemaSync` /
`validateJsonSchema` (`let val = body; for (const part of pathParts) ...`). -/
def resolveInstancePath (body : Json) (errorPath : String) : Option Json :=
  (pathSegments errorPath).foldl stepResolve (some body)

/-- Refinement reference for claim C5, written from the spec's words
(§4.1): an explicit first-match-wins cascade in the documented order
date-time, date, time, duration, uuid, email, uri, ipv4, ipv6, hostname,
with empty / whitespace-only strings never matching. -/
def specFormatCascade (v : String) : Option FormatTag :=
  if v.data.all isJsSpace then none
  else if dateTimeTest v then some FormatTag.dateTime
  else if dateTest v then some FormatTag.date
  else if timeTest v then some FormatTag.time
  else if durationTest v then some FormatTag.duration
  else if uuidTest v then some FormatTag.uuid
  else if emailTest v then some FormatTag.email
  else if uriTest v then some FormatTag.uri
  else if ipv4Test v then some FormatTag.ipv4
  else if ipv6Test v then some FormatTag.ipv6
  else if hostnameTest v then some FormatTag.hostname
  else none

/-! ### Helper lemmas -/

/-- The source's ordered `find?` over FORMAT_PATTERNS equals the explicit
first-match-wins cascade written from the spec. -/
theorem detectFormat_eq_cascade (v : String) :
    detectFormat v = specFormatCascade v := by
  unfold detectFormat specFormatCascade FORMAT_PATTERNS
  cases h0 : v.data.all isJsSpace
  · cases h1 : dateTimeTest v
    · cases h2 : dateTest v
      · cases h3 : timeTest v
        · cases h4 : durationTest v
          · cases h5 : uuidTest v
            · cases h6 : emailTest v
              · cases h7 : uriTest v
                · cases h8 : ipv4Test v
                  · cases h9 : ipv6Test v
                    · cases h10 : hostnameTest v
                      · simp [List.find?, h0, h1, h2, h3, h4, h5, h6, h7, h8, h9, h10]
                      · simp [List.find?, h0, h1, h2, h3, h4, h5, h6, h7, h8, h9, h10]
                    · simp [List.find?, h0, h1, h2, h3, h4, h5, h6, h7, h8, h9]
                  · simp [List.find?, h0, h1, h2, h3, h4, h5, h6, h7, h8]
                · simp [List.find?, h0, h1, h2, h3, h4, h5, h6, h7]
              · simp [List.find?, h0, h1, h2, h3, h4, h5, h6]
            · simp [List.find?, h0, h1, h2, h3, h4, h5]
          · simp [List.find?, h0, h1, h2, h3, h4]
        · simp [List.find?, h0, h1, h2, h3]
      · simp [List.find?, h0, h1, h2]
    · simp [List.find?, h0, h1]
  · simp [h0]

/-- A positive detection of `uuid` implies the uuid pattern accepted. -/
theorem detect_uuid_test {v : String} (h : detectFormat v = some FormatTag.uuid) :
    uuidTest v = true := by
  unfold detectFormat at h
  by_cases h0 : v.data.all isJsSpace
  · rw [if_pos h0] at h
    exact absurd h (by simp)
  · rw [if_neg h0, Option.map_eq_some'] at h
    obtain ⟨q, hfind, hfst⟩ := h
    have hmem := List.mem_of_find?_eq_some hfind
    have hpred := List.find?_some hfind
    simp only [FORMAT_PATTERNS, List.mem_cons, List.not_mem_nil, or_false] at hmem
    rcases hmem with rfl | rfl | rfl | rfl | rfl | rfl | rfl | rfl | rfl | rfl <;>
      first
      | exact hpred
      | simp at hfst

/-- A positive detection of `hostname` implies the hostname pattern
accepted. -/
theorem detect_hostname_test {v : String}
    (h : detectFormat v = some FormatTag.hostname) : hostnameTest v = true := by
  unfold detectFormat at h
  by_cases h0 : v.data.all isJsSpace
  · rw [if_pos h0] at h
    exact absurd h (by simp)
  · rw [if_neg h0, Option.map_eq_some'] at h
    obtain ⟨q, hfind, hfst⟩ := h
    have hmem := List.mem_of_find?_eq_some hfind
    have hpred := List.find?_some hfind
    simp only [FORMAT_PATTERNS, List.mem_cons, List.not_mem_nil, or_false] at hmem
    rcases hmem with rfl | rfl | rfl | rfl | rfl | rfl | rfl | rfl | rfl | rfl <;>
      first
      | exact hpred
      | simp at hfst

/-- Successful hex chomping splits the input into `n` hex digits and the
rest. -/
theorem chompHex_decomp :
    ∀ (n : Nat) (cs rest : List Char), chompHex n cs = some rest →
      ∃ ds, cs = ds ++ rest ∧ ds.length = n ∧ ds.all isHexDig = true := by
  intro n
  induction n with
  | zero =>
    intro cs rest h
    refine ⟨[], ?_, rfl, rfl⟩
    simpa [chompHex] using h
  | succ m ih =>
    intro cs rest h
    cases cs with
    | nil => simp [chompHex] at h
    | cons c cs2 =>
      unfold chompHex at h
      by_cases hc : isHexDig c
      · rw [if_pos hc] at h
        obtain ⟨ds, hcs, hlen, hall⟩ := ih cs2 rest h
        exact ⟨c :: ds, by simp [hcs], by simp [hlen], by simp [hall, hc]⟩
      · rw [if_neg hc] at h
        exact absurd h (by simp)

/-- Successful single-character chomping exposes that character. -/
theorem chompChar_decomp {ch : Char} {cs rest : List Char}
    (h : chompChar ch cs = some rest) : cs = ch :: rest := by
  cases cs with
  | nil => simp [chompChar] at h
  | cons d cs2 =>
    simp only [chompChar] at h
    by_cases hd : d = ch
    · rw [if_pos hd] at h
      cases h
      rw [hd]
    · rw [if_neg hd] at h
      exact absurd h (by simp)

/-- C5: format detection is an ordered, first-match-wins cascade in the
order date-time, date, time, duration, uuid, email, uri, ipv4, ipv6,
hostname: `_detectFormat` agrees everywhere with the explicit cascade in
exactly that order, the pattern list carries the tags in that order, and
"2024-07-25" detects as date (never date-time) while
"2024-07-25T13:36:08.365Z" detects as date-time. -/
theorem c5_ordered_first_match_cascade :
    (∀ v : String, detectFormat v = specFormatCascade v) ∧
    FORMAT_PATTERNS.map (fun p => p.1) =
      [FormatTag.dateTime, FormatTag.date, FormatTag.time, FormatTag.duration,
       FormatTag.uuid, FormatTag.email, FormatTag.uri, FormatTag.ipv4,
       FormatTag.ipv6, FormatTag.hostname] ∧
    detectFormat ("2024-07-25") = some FormatTag.date ∧
    detectFormat ("2024-07-25T13:36:08.365Z") = some FormatTag.dateTime :=
  ⟨detectFormat_eq_cascade, rfl, rfl, rfl⟩

/-- C1 (failing input of the format-merge conservatism claim): on the
spec's own sample `[{"t":"2024-07-25T00:00:00Z"},{"t":"not-a-date"}]` the
merged descriptor for `t` DOES carry format `date-time`, because
`_mergeTypeInfo` only tests that the set of detected formats is a
singleton and `"not-a-date"` (which detects to no format at all)
contributes nothing to that set. The claim (and the code's own comment
"Only attach format when all non-null values agree on one format") says
the field must carry no format. -/
theorem c1_format_attached_at_failing_input :
    mergeTypeInfo
        [[("t", Json.str ("2024-07-25T00:00:00Z"))],
         [("t", Json.str ("not-a-date"))]] =
      [("t", { type := SchemaType.single TypeTag.string,
               format := some FormatTag.dateTime })] ∧
    detectFormat ("not-a-date") = none ∧
    detectFormat ("2024-07-25T00:00:00Z") = some FormatTag.dateTime :=
  ⟨rfl, rfl, rfl⟩

/-- C8: a string detected as hostname necessarily contains a dot, has
length at most 253, and splits into at least two labels, each of 1-63
characters from `[a-zA-Z0-9-]` with no leading or trailing hyphen;
"active" detects to nothing and "api.example.com" detects to hostname. -/
theorem c8_hostname_necessary_conditions :
    (∀ v : String, detectFormat v = some FormatTag.hostname →
      v.data.contains '.' = true ∧ v.length ≤ 253 ∧
      2 ≤ (splitOnChar '.' v.data).length ∧
      ∀ p ∈ splitOnChar '.' v.data,
        p ≠ [] ∧ p.length ≤ 63 ∧ p.all hostLabelChar = true ∧
        p.head? ≠ some '-' ∧ p.getLast? ≠ some '-') ∧
    detectFormat ("active") = none ∧
    detectFormat ("api.example.com") = some FormatTag.hostname := by
  refine ⟨?_, rfl, rfl⟩
  intro v h
  have ht : hostnameTest v = true := detect_hostname_test h
  unfold hostnameTest at ht
  simp only [Bool.and_eq_true, decide_eq_true_eq] at ht
  obtain ⟨⟨hlen, hdot⟩, hcnt, hall⟩ := ht
  refine ⟨hdot, hlen, hcnt, ?_⟩
  intro p hp
  rw [List.all_eq_true] at hall
  have hl : labelOk p = true := hall p hp
  unfold labelOk at hl
  simp only [Bool.and_eq_true, decide_eq_true_eq, Bool.not_eq_true'] at hl
  obtain ⟨⟨⟨⟨hne, h63⟩, hchars⟩, hhead⟩, hlast⟩ := hl
  refine ⟨?_, h63, hchars, hhead, hlast⟩
  intro hnil
  rw [hnil] at hne
  simp at hne

/-- Under a digit hypothesis, digit chomping steps through a cons cell. -/
theorem chompDigits_cons {c : Char} {n : Nat} {cs : List Char}
    (h : c.isDigit = true) :
    chompDigits (n + 1) (c :: cs) = chompDigits n cs := by
  simp [chompDigits, h]

/-- C10: the date and time detectors check only digit-count shape. Every
string shaped as four digits, hyphen, two digits, hyphen, two digits is
tagged `date` (even "2024-13-99"), and every string shaped as two digits,
colon, two digits, colon, two digits is tagged `time` (even "99:99:99"). -/
theorem c10_shape_only_date_and_time :
    (∀ d1 d2 d3 d4 d5 d6 d7 d8 : Char,
      d1.isDigit = true → d2.isDigit = true → d3.isDigit = true →
      d4.isDigit = true → d5.isDigit = true → d6.isDigit = true →
      d7.isDigit = true → d8.isDigit = true →
      detectFormat (String.mk [d1, d2, d3, d4, '-', d5, d6, '-', d7, d8]) =
        some FormatTag.date) ∧
    (∀ e1 e2 e3 e4 e5 e6 : Char,
      e1.isDigit = true → e2.isDigit = true → e3.isDigit = true →
      e4.isDigit = true → e5.isDigit = true → e6.isDigit = true →
      detectFormat (String.mk [e1, e2, ':', e3, e4, ':', e5, e6]) =
        some FormatTag.time) ∧
    detectFormat ("2024-13-99") = some FormatTag.date ∧
    detectFormat ("99:99:99") = some FormatTag.time := by
  refine ⟨?_, ?_, rfl, rfl⟩
  · intro d1 d2 d3 d4 d5 d6 d7 d8 h1 h2 h3 h4 h5 h6 h7 h8
    rw [detectFormat_eq_cascade]
    unfold specFormatCascade
    rw [if_neg ?ws, if_neg ?dt, if_pos ?d]
    case ws =>
      intro hws
      rw [List.all_eq_true] at hws
      have := hws '-' (by simp [String.mk])
      simp [isJsSpace] at this
    case dt =>
      intro hdt
      unfold dateTimeTest at hdt
      simp only [String.mk] at hdt
      rw [show (4 : Nat) = 3 + 1 by rfl, chompDigits_cons h1,
        chompDigits_cons h2, chompDigits_cons h3] at hdt
      simp [chompDigits, h4, h5, h6, h7, h8, chompChar] at hdt
    case d =>
      unfold dateTest
      simp only [String.mk]
      rw [show (4 : Nat) = 3 + 1 by rfl, chompDigits_cons h1,
        chompDigits_cons h2, chompDigits_cons h3]
      simp [chompDigits, h4, h5, h6, h7, h8, chompChar]
  · intro e1 e2 e3 e4 e5 e6 h1 h2 h3 h4 h5 h6
    rw [detectFormat_eq_cascade]
    unfold specFormatCascade
    rw [if_neg ?ws2, if_neg ?dt2, if_neg ?d2, if_pos ?t2]
    case ws2 =>
      intro hws
      rw [List.all_eq_true] at hws
      have := hws ':' (by simp [String.mk])
      simp [isJsSpace] at this
    case dt2 =>
      intro hdt
      unfold dateTimeTest at hdt
      simp only [String.mk] at hdt
      rw [show (4 : Nat) = 3 + 1 by rfl, chompDigits_cons h1,
        chompDigits_cons h2] at hdt
      simp [chompDigits] at hdt
    case d2 =>
      intro hdt
      unfold dateTest at hdt
      simp only [String.mk] at hdt
      rw [show (4 : Nat) = 3 + 1 by rfl, chompDigits_cons h1,
        chompDigits_cons h2] at hdt
      simp [chompDigits] at hdt
    case t2 =>
      unfold timeTest timeTail
      simp only [String.mk]
      rw [show (2 : Nat) = 1 + 1 by rfl, chompDigits_cons h1]
      simp [chompDigits, h2, h3, h4, h5, h6, chompChar, chompFrac, zoneEnd]

/-- Closed witness for C8: the necessary conditions hold at
"api.example.com". -/
theorem c8_hostname_witness :
    ("api.example.com").data.contains '.' = true ∧
    ("api.example.com").length ≤ 253 ∧
    2 ≤ (splitOnChar '.' ("api.example.com").data).length ∧
    ∀ p ∈ splitOnChar '.' ("api.example.com").data,
      p ≠ [] ∧ p.length ≤ 63 ∧ p.all hostLabelChar = true ∧
      p.head? ≠ some '-' ∧ p.getLast? ≠ some '-' :=
  c8_hostname_necessary_conditions.1 ("api.example.com") rfl

/-- Closed witness for C10: applying the shape theorems at the concrete
digit characters of "2024-13-99" and "99:99:99". -/
theorem c10_shape_witness :
    detectFormat (String.mk ['2', '0', '2', '4', '-', '1', '3', '-', '9', '9']) =
      some FormatTag.date ∧
    detectFormat (String.mk ['9', '9', ':', '9', '9', ':', '9', '9']) =
      some FormatTag.time :=
  ⟨c10_shape_only_date_and_time.1 '2' '0' '2' '4' '1' '3' '9' '9'
      rfl rfl rfl rfl rfl rfl rfl rfl,
    c10_shape_only_date_and_time.2.1 '9' '9' '9' '9' '9' '9'
      rfl rfl rfl rfl rfl rfl⟩

/-- C3 counterexample: the nil-style UUID (version nibble 0, variant
nibble 0) is accepted by `_detectFormat` as `uuid`, so the claim that
`uuid` is returned only for version nibbles 1-5 and RFC variant nibbles
8, 9, a, b fails at this input. -/
theorem c3_uuid_claim_counterexample :
    detectFormat ("00000000-0000-0000-0000-000000000000") = some FormatTag.uuid ∧
    ("00000000-0000-0000-0000-000000000000").data.get? 14 = some '0' ∧
    ("00000000-0000-0000-0000-000000000000").data.get? 19 = some '0' ∧
    ¬('1' ≤ '0' ∧ '0' ≤ '5') ∧
    '0' ∉ ['8', '9', 'a', 'b', 'A', 'B'] :=
  ⟨rfl, rfl, rfl, by decide, by decide⟩

/-- C3 amended: `_detectFormat` returns `uuid` only for strings of shape
8-4-4-4-12 hex digits joined by hyphens whose version nibble is a digit in
0-5 (the source also admits the nil UUID) and whose variant nibble is in
the class {0, 8, 9, a, b}, case-insensitively; the malformed version
nibble "550e8400-e29b-91d4-a716-446655440000" still detects to nothing. -/
theorem c3_uuid_structure_amended :
    (∀ v : String, detectFormat v = some FormatTag.uuid →
      ∃ g1 g2 g3t g4t g5 : List Char, ∃ c3 c4 : Char,
        v.data =
          g1 ++ '-' :: (g2 ++ '-' :: (c3 :: (g3t ++ '-' :: (c4 :: (g4t ++ '-' :: g5))))) ∧
        g1.length = 8 ∧ g2.length = 4 ∧ g3t.length = 3 ∧ g4t.length = 3 ∧
        g5.length = 12 ∧
        g1.all isHexDig = true ∧ g2.all isHexDig = true ∧
        g3t.all isHexDig = true ∧ g4t.all isHexDig = true ∧
        g5.all isHexDig = true ∧
        '0' ≤ c3 ∧ c3 ≤ '5' ∧ uuidVariantChar c4 = true) ∧
    detectFormat ("550e8400-e29b-91d4-a716-446655440000") = none := by
  refine ⟨?_, rfl⟩
  intro v h
  have ht := detect_uuid_test h
  unfold uuidTest at ht
  split at ht
  case h_2 => exact absurd ht (by simp)
  case h_1 c3 r3 hA =>
    rw [Bool.and_eq_true] at ht
    obtain ⟨h35, ht2⟩ := ht
    simp only [Bool.and_eq_true, decide_eq_true_eq] at h35
    obtain ⟨h0c, hc5⟩ := h35
    split at ht2
    case h_2 => exact absurd ht2 (by simp)
    case h_1 c4 r4 hB =>
      rw [Bool.and_eq_true] at ht2
      obtain ⟨hvar, ht3⟩ := ht2
      split at ht3
      case h_2 => exact absurd ht3 (by simp)
      case h_1 hC =>
        rw [Option.bind_eq_some] at hA
        obtain ⟨a3, hA1, hA2⟩ := hA
        rw [Option.bind_eq_some] at hA1
        obtain ⟨a2, hA3, hA4⟩ := hA1
        rw [Option.bind_eq_some] at hA3
        obtain ⟨a1, hH8, hC1⟩ := hA3
        rw [Option.bind_eq_some] at hB
        obtain ⟨b1, hH3, hCb⟩ := hB
        rw [Option.bind_eq_some] at hC
        obtain ⟨c2x, hC2, hH12⟩ := hC
        rw [Option.bind_eq_some] at hC2
        obtain ⟨d1x, hH3b, hCc⟩ := hC2
        obtain ⟨g1, hv1, hg1len, hg1hex⟩ := chompHex_decomp 8 v.data a1 hH8
        have ha1 := chompChar_decomp hC1
        obtain ⟨g2, hv2, hg2len, hg2hex⟩ := chompHex_decomp 4 a2 a3 hA4
        have ha3 := chompChar_decomp hA2
        obtain ⟨g3t, hv3, hg3len, hg3hex⟩ := chompHex_decomp 3 r3 b1 hH3
        have hb1 := chompChar_decomp hCb
        obtain ⟨g4t, hv4, hg4len, hg4hex⟩ := chompHex_decomp 3 r4 d1x hH3b
        have hd1 := chompChar_decomp hCc
        obtain ⟨g5, hv5, hg5len, hg5hex⟩ := chompHex_decomp 12 c2x [] hH12
        rw [List.append_nil] at hv5
        refine ⟨g1, g2, g3t, g4t, g5, c3, c4, ?_, hg1len, hg2len, hg3len,
          hg4len, hg5len, hg1hex, hg2hex, hg3hex, hg4hex, hg5hex, h0c, hc5, hvar⟩
        rw [hv1, ha1, hv2, ha3]
        rw [hv3, hb1, hv4, hd1, hv5]

/-- Closed witness for C3's amended structure theorem at the valid
version-4 UUID "550e8400-e29b-41d4-a716-446655440000". -/
theorem c3_uuid_structure_witness :
    ∃ g1 g2 g3t g4t g5 : List Char, ∃ c3 c4 : Char,
      ("550e8400-e29b-41d4-a716-446655440000").data =
        g1 ++ '-' :: (g2 ++ '-' :: (c3 :: (g3t ++ '-' :: (c4 :: (g4t ++ '-' :: g5))))) ∧
      g1.length = 8 ∧ g2.length = 4 ∧ g3t.length = 3 ∧ g4t.length = 3 ∧
      g5.length = 12 ∧
      g1.all isHexDig = true ∧ g2.all isHexDig = true ∧
      g3t.all isHexDig = true ∧ g4t.all isHexDig = true ∧
      g5.all isHexDig = true ∧
      '0' ≤ c3 ∧ c3 ≤ '5' ∧ uuidVariantChar c4 = true :=
  c3_uuid_structure_amended.1 ("550e8400-e29b-41d4-a716-446655440000") rfl

/-- A successful association-list lookup exposes a member pair. -/
theorem lookup_eq_some_mem :
    ∀ {l : JObj} {a : String} {b : Json}, l.lookup a = some b → (a, b) ∈ l := by
  intro l
  induction l with
  | nil => intro a b h; simp [List.lookup] at h
  | cons kv rest ih =>
    intro a b h
    obtain ⟨k, w⟩ := kv
    rw [List.lookup] at h
    by_cases hk : a == k
    · rw [hk] at h
      cases h
      have : a = k := by simpa using hk
      rw [this]
      exact List.mem_cons_self _ _
    · rw [Bool.not_eq_true] at hk
      rw [hk] at h
      exact List.mem_cons_of_mem _ (ih h)

/-- Inserting a key puts it in the ordered key set. -/
theorem mem_insertKey_self (k : String) (ks : List String) : k ∈ insertKey k ks := by
  unfold insertKey
  split
  · next hc => simpa [List.contains] using hc
  · exact List.mem_append_right _ (List.mem_singleton.mpr rfl)

/-- Inserting a key keeps every existing key. -/
theorem mem_insertKey_mono {x k : String} {ks : List String} (h : x ∈ ks) :
    x ∈ insertKey k ks := by
  unfold insertKey
  split
  · exact h
  · exact List.mem_append_left _ h

/-- The inner key-collection fold keeps accumulated keys. -/
theorem mem_foldl_insert_acc {x : String} :
    ∀ (item : JObj) (acc : List String), x ∈ acc →
      x ∈ item.foldl (fun a kv => insertKey kv.1 a) acc := by
  intro item
  induction item with
  | nil => intro acc h; simpa using h
  | cons kv rest ih => intro acc h; exact ih _ (mem_insertKey_mono h)

/-- The inner key-collection fold picks up every key of the item. -/
theorem mem_foldl_insert_of_pair {key : String} {w : Json} :
    ∀ (item : JObj) (acc : List String), (key, w) ∈ item →
      key ∈ item.foldl (fun a kv => insertKey kv.1 a) acc := by
  intro item
  induction item with
  | nil => intro acc h; simp at h
  | cons kv rest ih =>
    intro acc h
    rcases List.mem_cons.mp h with h1 | hmem
    · rw [← h1]
      exact mem_foldl_insert_acc rest _ (mem_insertKey_self key acc)
    · exact ih _ hmem

/-- The outer key-union fold contains a key as soon as some item holds it
(or it was already accumulated). -/
theorem mem_keysUnion_aux {key : String} {w : Json} :
    ∀ (items : List JObj) (acc : List String),
      (∃ item ∈ items, (key, w) ∈ item) ∨ key ∈ acc →
      key ∈ items.foldl
        (fun acc item => item.foldl (fun a kv => insertKey kv.1 a) acc) acc := by
  intro items
  induction items with
  | nil =>
    intro acc h
    rcases h with ⟨item, hm, _⟩ | h
    · simp at hm
    · simpa using h
  | cons it rest ih =>
    intro acc h
    rcases h with ⟨item, hm, hp⟩ | hacc
    · rcases List.mem_cons.mp hm with h1 | hmem
      · rw [h1] at hp
        exact ih _ (Or.inr (mem_foldl_insert_of_pair it _ hp))
      · exact ih _ (Or.inl ⟨item, hmem, hp⟩)
    · exact ih _ (Or.inr (mem_foldl_insert_acc it _ hacc))

/-- A key present in some item is in the key union. -/
theorem mem_keysUnion {key : String} {w : Json} {items : List JObj}
    (item : JObj) (hm : item ∈ items) (hp : (key, w) ∈ item) :
    key ∈ keysUnion items :=
  mem_keysUnion_aux items [] (Or.inl ⟨item, hm, hp⟩)

/-- The all-items filter predicate of `_getRequiredFields`, unfolded to a
universally quantified statement. -/
theorem isRequiredIn_iff (items : List JObj) (key : String) :
    isRequiredIn items key = true ↔
      ∀ item ∈ items, ∃ w, item.lookup key = some w ∧ w ≠ Json.null := by
  unfold isRequiredIn
  rw [List.all_eq_true]
  constructor
  · intro h item hm
    have hx := h item hm
    rcases hlk : item.lookup key with _ | w
    · rw [hlk] at hx
      simp at hx
    · rw [hlk] at hx
      refine ⟨w, rfl, ?_⟩
      intro hnull
      rw [hnull] at hx
      simp at hx
  · intro h item hm
    obtain ⟨w, hlk, hnn⟩ := h item hm
    rw [hlk]
    cases w with
    | null => exact absurd rfl hnn
    | bool b => rfl
    | num n => rfl
    | str s => rfl
    | arr xs => rfl
    | obj kvs => rfl

/-- C6: on a non-empty filtered sample sequence, a field name is required
iff the key is present with a non-null value in every sample; the empty
sequence yields an empty required set; and on the sample pair
`[{"a":1},{"a":2,"b":3}]` the required set is exactly `["a"]`, in either
insertion order of `a` and `b`. -/
theorem c6_required_iff_present_nonnull :
    getRequiredFields ([] : List JObj) = [] ∧
    (∀ (items : List JObj) (key : String), items ≠ [] →
      (key ∈ getRequiredFields items ↔
        ∀ item ∈ items, ∃ w, item.lookup key = some w ∧ w ≠ Json.null)) ∧
    getRequiredFields
        [[("a", Json.num 1)], [("a", Json.num 2), ("b", Json.num 3)]] = ["a"] ∧
    getRequiredFields
        [[("a", Json.num 1)], [("b", Json.num 3), ("a", Json.num 2)]] = ["a"] := by
  refine ⟨rfl, ?_, rfl, rfl⟩
  intro items key hne
  have hn : items.isEmpty = false := by
    cases items with
    | nil => exact absurd rfl hne
    | cons it its => rfl
  unfold getRequiredFields
  rw [hn]
  simp only [Bool.false_eq_true, if_false]
  rw [List.mem_filter]
  constructor
  · rintro ⟨-, hreq⟩
    exact (isRequiredIn_iff items key).mp hreq
  · intro hall
    refine ⟨?_, (isRequiredIn_iff items key).mpr hall⟩
    obtain ⟨it, its, rfl⟩ : ∃ it its, items = it :: its := by
      cases items with
      | nil => exact absurd rfl hne
      | cons it its => exact ⟨it, its, rfl⟩
    obtain ⟨w, hlk, -⟩ := hall it (List.mem_cons_self it its)
    exact mem_keysUnion it (List.mem_cons_self it its) (lookup_eq_some_mem hlk)

/-- Closed witness for C6 at the sample pair `[{"a":1},{"a":2,"b":3}]`
and key "a". -/
theorem c6_required_witness :
    ("a") ∈ getRequiredFields
        [[("a", Json.num 1)], [("a", Json.num 2), ("b", Json.num 3)]] ↔
      ∀ item ∈ [[("a", Json.num 1)], [("a", Json.num 2), ("b", Json.num 3)]],
        ∃ w, item.lookup ("a") = some w ∧ w ≠ Json.null :=
  c6_required_iff_present_nonnull.2.1
    [[("a", Json.num 1)], [("a", Json.num 2), ("b", Json.num 3)]] ("a")
    (List.cons_ne_nil _ _)

/-- Whether a merged schema type mentions `null` (single tag or union
member). -/
def typeIncludesNull : SchemaType → Prop
  | SchemaType.single t => t = TypeTag.null
  | SchemaType.union ts => TypeTag.null ∈ ts

/-- One merge step never clears the `hasNull` flag. -/
theorem stepMeta_hasNull_mono {key : String} {meta : FieldMeta} {item : JObj}
    (h : meta.hasNull = true) : (stepMeta key meta item).hasNull = true := by
  unfold stepMeta
  split
  · rfl
  · rfl
  · simpa using h

/-- The merge fold never clears the `hasNull` flag. -/
theorem foldl_stepMeta_hasNull_mono {key : String} :
    ∀ (items : List JObj) (meta : FieldMeta), meta.hasNull = true →
      (items.foldl (stepMeta key) meta).hasNull = true := by
  intro items
  induction items with
  | nil => intro meta h; simpa using h
  | cons it rest ih => intro meta h; exact ih _ (stepMeta_hasNull_mono h)

/-- Scanning a sample set containing an item that misses the key or maps
it to `null` sets `hasNull`. -/
theorem foldl_stepMeta_hasNull {key : String} :
    ∀ (items : List JObj) (meta : FieldMeta) (item : JObj), item ∈ items →
      (item.lookup key = none ∨ item.lookup key = some Json.null) →
      (items.foldl (stepMeta key) meta).hasNull = true := by
  intro items
  induction items with
  | nil => intro meta item hm; simp at hm
  | cons it rest ih =>
    intro meta item hm hnull
    rcases List.mem_cons.mp hm with h1 | hmem
    · rw [h1] at hnull
      rw [List.foldl_cons]
      apply foldl_stepMeta_hasNull_mono
      unfold stepMeta
      rcases hnull with hx | hx <;> rw [hx]
    · exact ih _ item hmem hnull

/-- A set `hasNull` flag makes the final descriptor's type mention
`null`. -/
theorem buildDescriptor_null {meta : FieldMeta} (h : meta.hasNull = true) :
    typeIncludesNull (buildDescriptor meta).type := by
  unfold buildDescriptor
  rw [h]
  simp only [if_true]
  rcases hT : meta.types with _ | ⟨t, _ | ⟨u, us⟩⟩ <;>
    simp [typeIncludesNull]

/-- Looking a key up in the key-to-descriptor map built by mapping over a
key list containing it yields the descriptor of that key. -/
theorem lookup_map_self {β : Type} (f : String → β) :
    ∀ (ks : List String) (key : String), key ∈ ks →
      (ks.map (fun k => (k, f k))).lookup key = some (f key) := by
  intro ks
  induction ks with
  | nil => intro key h; simp at h
  | cons k rest ih =>
    intro key h
    by_cases hk : key = k
    · rw [List.map_cons, List.lookup, show (key == k) = true by simpa using hk]
      rw [hk]
    · have hmem : key ∈ rest := by
        rcases List.mem_cons.mp h with h1 | h1
        · exact absurd h1 hk
        · exact h1
      rw [List.map_cons, List.lookup, show (key == k) = false by simpa using hk]
      exact ih key hmem

/-- C7: merging `[{"a":1},{"a":null}]` gives field `a` the aggregation
state types = {number}, hasNull = true, and the final descriptor type
union `["number","null"]` with no format; in general, a field that is
absent or explicitly `null` in at least one scanned sample gets `null`
into its merged type. -/
theorem c7_null_into_type_union :
    mergeTypeInfo [[("a", Json.num 1)], [("a", Json.null)]] =
      [("a", { type := SchemaType.union [TypeTag.number, TypeTag.null],
               format := none })] ∧
    scanField ("a") [[("a", Json.num 1)], [("a", Json.null)]] =
      { types := [TypeTag.number], formats := [], hasNull := true } ∧
    TypeTag.null ∈ [TypeTag.number, TypeTag.null] ∧
    (∀ (items : List JObj) (key : String) (item : JObj),
      item ∈ items →
      (item.lookup key = none ∨ item.lookup key = some Json.null) →
      key ∈ keysUnion items →
      ∃ fs, (mergeTypeInfo items).lookup key = some fs ∧
        typeIncludesNull fs.type) := by
  refine ⟨rfl, rfl, by simp, ?_⟩
  intro items key item hm hnull hk
  refine ⟨buildDescriptor (scanField key items), ?_, ?_⟩
  · unfold mergeTypeInfo
    exact lookup_map_self _ (keysUnion items) key hk
  · exact buildDescriptor_null (foldl_stepMeta_hasNull items _ item hm hnull)

/-- Closed witness for C7's general part at `[{"a":1},{"a":null}]`. -/
theorem c7_null_union_witness :
    ∃ fs, (mergeTypeInfo [[("a", Json.num 1)], [("a", Json.null)]]).lookup ("a") =
        some fs ∧ typeIncludesNull fs.type :=
  c7_null_into_type_union.2.2.2
    [[("a", Json.num 1)], [("a", Json.null)]] ("a") [("a", Json.null)]
    (by simp) (Or.inr rfl) (by simp [keysUnion, insertKey])

/-- Once the resolution value is `undefined`, it stays `undefined`. -/
theorem foldl_stepResolve_none :
    ∀ parts : List String, parts.foldl stepResolve none = none := by
  intro parts
  induction parts with
  | nil => rfl
  | cons p rest ih => exact ih

/-- C2 counterexample: resolving "/a/b" against `{"a":5}` leaves the loop
value stuck at `5` (segment "b" does not exist on the node `5`, which is
not an object), so the resolved actual value is `5`, not `undefined`. -/
theorem c2_resolution_counterexample :
    resolveInstancePath (Json.obj [("a", Json.num 5)]) ("/a/b") =
      some (Json.num 5) ∧
    some (Json.num 5) ≠ (none : Option Json) :=
  ⟨rfl, by simp⟩

/-- C2 amended: the loop walks one segment at a time and never throws
(it is a total fold); a non-empty segment missing from a current object
node degrades the value to `undefined` and it stays `undefined` for the
remaining segments; but when the current node is not an object or array
(a primitive or `null`), the remaining segments are skipped and that node
itself is returned instead of `undefined`. -/
theorem c2_resolution_amended :
    (∀ (body : Json) (path : String) (l1 l2 : List String) (part : String)
        (kvs : JObj),
      pathSegments path = l1 ++ part :: l2 →
      l1.foldl stepResolve (some body) = some (Json.obj kvs) →
      part ≠ "" →
      kvs.lookup part = none →
      resolveInstancePath body path = none) ∧
    (∀ parts : List String, parts.foldl stepResolve none = none) ∧
    (∀ (v : Json) (parts : List String),
      truthy v = false ∨ jsTypeofIsObject v = false →
      parts.foldl stepResolve (some v) = some v) := by
  refine ⟨?_, foldl_stepResolve_none, ?_⟩
  · intro body path l1 l2 part kvs hsegs hfold hne hlk
    unfold resolveInstancePath
    rw [hsegs, List.foldl_append, hfold, List.foldl_cons]
    have hstep : stepResolve (some (Json.obj kvs)) part = none := by
      simp only [stepResolve]
      rw [if_pos (by simp [truthy, jsTypeofIsObject, hne])]
      exact hlk
    rw [hstep]
    exact foldl_stepResolve_none l2
  · intro v parts hv
    induction parts with
    | nil => rfl
    | cons p rest ih =>
      have hstep : stepResolve (some v) p = some v := by
        simp only [stepResolve]
        rw [if_neg]
        intro hguard
        simp only [Bool.and_eq_true] at hguard
        rcases hv with hx | hx
        · rw [hx] at hguard
          simp at hguard
        · rw [hx] at hguard
          simp at hguard
      rw [List.foldl_cons, hstep]
      exact ih

/-- Closed witness for C2's amended missing-key clause: "/a/b" against
`{"a":{"c":1}}` resolves to `undefined`. -/
theorem c2_resolution_witness :
    resolveInstancePath (Json.obj [("a", Json.obj [("c", Json.num 1)])])
      ("/a/b") = none :=
  c2_resolution_amended.1 (Json.obj [("a", Json.obj [("c", Json.num 1)])])
    ("/a/b") [("a")] [] ("b") [("c", Json.num 1)] rfl rfl (by decide) rfl

/-- C4 counterexample: for the array `[null]`, whose first element is not
an object, the array branch still fires (JS `typeof null === 'object'`)
and produces a field-aware items schema with empty properties and empty
required list. -/
theorem c4_items_counterexample :
    createItemsSchema (Json.arr [Json.null]) =
      some { properties := [], required := [] } ∧
    isPlainObj Json.null = false :=
  ⟨rfl, rfl⟩

/-- C4 amended: a field-aware items schema is produced exactly when the
array is non-empty and its first element satisfies JS
`typeof === 'object'` (a plain object, an array, or `null`); the merge
and the required-field computation then run over the plain-object
elements only, every non-object element being excluded; empty arrays and
arrays starting with a primitive produce no items override. -/
theorem c4_items_schema_amended :
    (∀ j : Json, (∃ s, createItemsSchema j = some s) ↔
      ∃ x xs, j = Json.arr (x :: xs) ∧ jsTypeofIsObject x = true) ∧
    (∀ (x : Json) (xs : List Json) (s : ItemsSchema),
      createItemsSchema (Json.arr (x :: xs)) = some s →
      s.properties = mergeTypeInfo ((x :: xs).filterMap asObj) ∧
      s.required = getRequiredFields ((x :: xs).filterMap asObj)) ∧
    (∀ (l1 l2 : List Json) (x : Json), isPlainObj x = false →
      (l1 ++ x :: l2).filterMap asObj = (l1 ++ l2).filterMap asObj) ∧
    createItemsSchema (Json.arr []) = none := by
  refine ⟨?_, ?_, ?_, rfl⟩
  · intro j
    constructor
    · rintro ⟨s, hs⟩
      cases j with
      | arr items =>
        cases items with
        | nil => simp [createItemsSchema] at hs
        | cons x xs =>
          refine ⟨x, xs, rfl, ?_⟩
          by_cases ht : jsTypeofIsObject x
          · exact ht
          · simp [createItemsSchema, ht] at hs
      | null => simp [createItemsSchema] at hs
      | bool b => simp [createItemsSchema] at hs
      | num n => simp [createItemsSchema] at hs
      | str t => simp [createItemsSchema] at hs
      | obj kvs => simp [createItemsSchema] at hs
    · rintro ⟨x, xs, rfl, ht⟩
      exact ⟨{ properties := mergeTypeInfo ((x :: xs).filterMap asObj),
               required := getRequiredFields ((x :: xs).filterMap asObj) },
        by simp [createItemsSchema, ht]⟩
  · intro x xs s hs
    by_cases ht : jsTypeofIsObject x
    · simp only [createItemsSchema, ht, if_true] at hs
      injection hs with hs2
      rw [← hs2]
      exact ⟨rfl, rfl⟩
    · simp [createItemsSchema, ht] at hs
  · intro l1 l2 x hx
    have hnone : asObj x = none := by
      cases x <;> simp [asObj, isPlainObj] at hx ⊢
    simp [List.filterMap_append, List.filterMap_cons, hnone]

/-- Closed witness for C4's amended merge clause: the array
`[null, {"a":1}]` (null first, excluded from the merge) yields an items
schema whose properties and required list come from the single object
element. -/
theorem c4_items_schema_witness :
    ({ properties := [("a", { type := SchemaType.single TypeTag.number,
                              format := none })],
       required := [("a")] } : ItemsSchema).properties =
        mergeTypeInfo (([Json.null, Json.obj [("a", Json.num 1)]]).filterMap asObj) ∧
    ({ properties := [("a", { type := SchemaType.single TypeTag.number,
                              format := none })],
       required := [("a")] } : ItemsSchema).required =
        getRequiredFields (([Json.null, Json.obj [("a", Json.num 1)]]).filterMap asObj) :=
  c4_items_schema_amended.2.1 Json.null [Json.obj [("a", Json.num 1)]]
    { properties := [("a", { type := SchemaType.single TypeTag.number,
                             format := none })],
      required := [("a")] } rfl

end ApiSchemaValidator
